import Mathlib

/-!
Verification of the schema-migration module of the Ghost-based repository
(`core/server/data/migration/index.js`).

The module is embedded shallowly: the database is a pure `DbState`
(engine/client name, live table list, settings rows, column types of the
`posts` table), and each migration routine is a pure function returning the
ordered list of database operations it issues (`Op`) together with its
promise outcome.  JavaScript string/number primitives used by the source
(`parseInt(s, 10)`, `isNaN(s)`, string `<` comparison, `String(n)`
zero-padding) are modelled explicitly below.
-/

namespace GhostMigration

/-! ## JavaScript string/number primitives -/

/-- The whitespace characters recognised when JavaScript trims a string
before numeric conversion (ASCII fragment). -/
def isJsSpace (c : Char) : Bool :=
  c == ' ' || c == '\t' || c == '\n' || c == '\r'

/-- Decimal digit `0`-`9` (as used by `parseInt(s, 10)`). -/
def isDigitChar (c : Char) : Bool :=
  48 ≤ c.toNat && c.toNat ≤ 57

/-- Numeric value of a decimal digit character. -/
def digitVal (c : Char) : Nat := c.toNat - 48

/-- Value of a list of decimal digits, most significant first. -/
def natOfDigits (l : List Char) : Nat :=
  l.foldl (fun n c => n * 10 + digitVal c) 0

/-- Longest decimal-digit prefix interpreted as a number; `none` when the
prefix is empty (`parseInt` yields `NaN`). -/
def parseIntCore (l : List Char) : Option Int :=
  let d := l.takeWhile isDigitChar
  if d.isEmpty then none else some (natOfDigits d)

/-- JavaScript `parseInt(s, 10)`: skip leading whitespace, optional sign,
then the longest digit prefix; `none` models `NaN`. -/
def parseIntJs (s : String) : Option Int :=
  let l := s.data.dropWhile isJsSpace
  if l.head? = some '-' then (parseIntCore l.tail).map (fun n => -n)
  else if l.head? = some '+' then parseIntCore l.tail
  else parseIntCore l

/-- Non-empty all-digit character list. -/
def isDigitsNonempty (l : List Char) : Bool :=
  !l.isEmpty && l.all isDigitChar

/-- Optional sign followed by a non-empty digit run (exponent payload of a
JavaScript decimal literal). -/
def signedDigits (l : List Char) : Bool :=
  if l.head? = some '+' || l.head? = some '-' then isDigitsNonempty l.tail
  else isDigitsNonempty l

/-- Exponent suffix of a JavaScript decimal literal: empty, or `e`/`E`
followed by signed digits. -/
def expPartOk (l : List Char) : Bool :=
  match l with
  | [] => true
  | c :: r => (c == 'e' || c == 'E') && signedDigits r

/-- Mantissa with optional fraction, then optional exponent:
`digits`, `digits.digits?`, or `.digits`. -/
def mantissaAndExp (l : List Char) : Bool :=
  match l.dropWhile isDigitChar with
  | '.' :: r2 =>
    (!(l.takeWhile isDigitChar).isEmpty || !(r2.takeWhile isDigitChar).isEmpty) &&
      expPartOk (r2.dropWhile isDigitChar)
  | rest => !(l.takeWhile isDigitChar).isEmpty && expPartOk rest

/-- Unsigned JavaScript numeric string body: `Infinity` or a decimal
mantissa/exponent form. -/
def jsUnsignedNumeric (l : List Char) : Bool :=
  l == "Infinity".data || mantissaAndExp l

/-- Signed JavaScript numeric string body. -/
def jsNumericLiteral (l : List Char) : Bool :=
  if l.head? = some '+' || l.head? = some '-' then jsUnsignedNumeric l.tail
  else jsUnsignedNumeric l

/-- Trim JavaScript whitespace from both ends. -/
def trimJs (l : List Char) : List Char :=
  ((l.dropWhile isJsSpace).reverse.dropWhile isJsSpace).reverse

/-- JavaScript `isNaN(s)` for a string argument: `Number(s)` is `NaN`.
The empty/whitespace string coerces to `0` (not `NaN`); otherwise the
trimmed string must be a numeric literal.  The model covers the decimal
and `Infinity` literal forms (the hexadecimal form of `Number()` is not
modelled; no input considered here uses it). -/
def jsIsNaN (s : String) : Bool :=
  let t := trimJs s.data
  if t.isEmpty then false else !(jsNumericLiteral t)

/-- JavaScript `>` between two `parseInt` results: any comparison against
`NaN` is false. -/
def jsNumGt (a b : Option Int) : Bool :=
  match a, b with
  | some x, some y => y < x
  | _, _ => false

/-- JavaScript `<` on strings: lexicographic comparison by code unit,
a proper prefix being smaller. -/
def lexLtChars : List Char → List Char → Bool
  | _, [] => false
  | [], _ :: _ => true
  | a :: as, b :: bs =>
    if a.toNat < b.toNat then true
    else if b.toNat < a.toNat then false
    else lexLtChars as bs

/-- JavaScript string comparison `a < b`. -/
def jsStringLt (a b : String) : Bool := lexLtChars a.data b.data

/-- JavaScript `String(n)` for an integer. -/
def jsIntToString (i : Int) : String :=
  if i < 0 then "-" ++ Nat.repr i.natAbs else Nat.repr i.natAbs

/-- ASCII lower-casing of one character (`String.prototype.toLowerCase`
on the ASCII type names that MySQL reports). -/
def toLowerCharJs (c : Char) : Char :=
  if 65 ≤ c.toNat && c.toNat ≤ 90 then Char.ofNat (c.toNat + 32) else c

/-- JavaScript `s.toLowerCase()` (ASCII fragment). -/
def toLowerJs (s : String) : String :=
  String.mk (s.data.map toLowerCharJs)

/-! ## Data model

A pure snapshot of the database as the migration module observes it. -/

/-- Database snapshot: the configured client/engine name, the tables the
engine catalog reports, the rows of the `settings` table (key/value), and
the column name/type pairs of the `posts` table (as reported by MySQL
`SHOW FIELDS`). -/
structure DbState where
  client : String
  liveTables : List String
  settingsRows : List (String × String)
  postsColumns : List (String × String)
deriving DecidableEq, Repr

/-- `knex.schema.hasTable('settings')`. -/
def hasSettingsTable (db : DbState) : Bool :=
  db.liveTables.contains "settings"

/-- A database operation issued by the module, in issue order. -/
inductive Op where
  | dropTableIfExists (table : String)
  | createTable (table : String)
  | updateVersion (value : String)
  | showPostsFields
  | alterPostsToMediumtext (field : String)
  | populateFixtures
  | populateDefaults
deriving DecidableEq, Repr

/-- Drop/create table DDL. -/
def opIsTableDdl : Op → Bool
  | Op.dropTableIfExists _ => true
  | Op.createTable _ => true
  | _ => false

/-- Operations belonging to the MySQL posts-table repair step. -/
def opIsRepair : Op → Bool
  | Op.showPostsFields => true
  | Op.alterPostsToMediumtext _ => true
  | _ => false

/-- Write to the persisted version marker. -/
def opIsVersionWrite : Op → Bool
  | Op.updateVersion _ => true
  | _ => false

/-- A rejected promise value: either a thrown JavaScript `Error` object
(carrying a `message`) or a plain rejected string. -/
inductive JsErr where
  | errorObj (message : String)
  | stringVal (value : String)
deriving DecidableEq, Repr

/-- Truthiness of `err.message`: an `Error`'s message when non-empty; a
plain string has no `message` property (undefined, falsy). -/
def errMessageTruthy : JsErr → Bool
  | JsErr.errorObj m => m != ""
  | JsErr.stringVal _ => false

/-- JavaScript `err === s` for a string literal `s`: true only when the
rejected value is that very string (an `Error` object never equals a
string). -/
def errEqString (e : JsErr) (s : String) : Bool :=
  match e with
  | JsErr.errorObj _ => false
  | JsErr.stringVal v => v == s

/-- JavaScript `err.message || err`, coerced to the reported string. -/
def errMessageOrSelf : JsErr → String
  | JsErr.errorObj m => m
  | JsErr.stringVal v => v

/-- Outcome of `init()`: resolved, process-terminating error sink call
(`errors.logErrorAndExit(headline, detail)`), or rejected promise. -/
inductive InitOutcome where
  | ok
  | fatalExit (headline detail : String)
  | rejected (e : JsErr)
deriving DecidableEq, Repr

/-! ## The migration module (`core/server/data/migration/index.js`) -/

/-- `initialVersion = '000'`. -/
def initialVersion : String := "000"

/-- `return parseInt(version.value, 10) > parseInt(memo, 10) ? version.value
: memo` — keep whichever of the accumulator and the next value has the
numerically greater `parseInt` (the accumulator wins ties and `NaN`
comparisons). -/
def reduceStep (memo v : String) : String :=
  if jsNumGt (parseIntJs v) (parseIntJs memo) then v else memo

/-- One monadic step of `getDatabaseVersion`'s `_.reduce`: throw
(`errors.throwError`, which raises an `Error` with the given message —
the `errorHandling` module is not under `src/`; modelled from the spec's
error-sink description) when the stored value is not numeric (`isNaN`),
otherwise apply `reduceStep`. -/
def reduceStepM (memo v : String) : Except JsErr String :=
  if jsIsNaN v then Except.error (JsErr.errorObj "Database version is not recognised")
  else Except.ok (reduceStep memo v)

/-- The `_.reduce` of `getDatabaseVersion`, folded from `initialVersion`. -/
def reduceVersions (versions : List String) : Except JsErr String :=
  versions.foldlM reduceStepM initialVersion

/-- The values of all `settings` rows keyed `databaseVersion` or
`currentVersion`, in row order (the `where … orWhere … select('value')`
query). -/
def versionRows (db : DbState) : List String :=
  (db.settingsRows.filter
    (fun r => r.1 == "databaseVersion" || r.1 == "currentVersion")).map (fun r => r.2)

/-- `getDatabaseVersion()`: reject with `Error('Settings table does not
exist')` when the settings table is absent; otherwise reduce the values of
all rows keyed `databaseVersion` or `currentVersion` to the numerically
greatest, starting from `initialVersion`, substituting `initialVersion`
for an empty result. -/
def getDatabaseVersion (db : DbState) : Except JsErr String :=
  if hasSettingsTable db then
    match reduceVersions (versionRows db) with
    | Except.error e => Except.error e
    | Except.ok v => Except.ok (if v == "" then initialVersion else v)
  else Except.error (JsErr.errorObj "Settings table does not exist")

/-- `setDatabaseVersion()`: update every existing `settings` row keyed
`databaseVersion` to the (cached) default version.  Returns the updated
rows and the issued operation; rows with other keys and a missing
`databaseVersion` row are untouched (`update` inserts nothing). -/
def setDatabaseVersion (rows : List (String × String)) (defaultVersion : String) :
    List (String × String) × Op :=
  (rows.map (fun r => if r.1 == "databaseVersion" then (r.1, defaultVersion) else r),
   Op.updateVersion defaultVersion)

/-- `_.difference(a, b)`: elements of `a` not present in `b`, in order. -/
def jsDifference (a b : List String) : List String :=
  a.filter (fun x => !(b.contains x))

/-- `getDeleteCommands(oldTables, newTables)`: one `dropTableIfExists` per
table present live but absent from the target; `none` (undefined) when the
difference is empty. -/
def getDeleteCommands (oldTables newTables : List String) : Option (List Op) :=
  let deleteTables := jsDifference oldTables newTables
  if deleteTables.isEmpty then none
  else some (deleteTables.map Op.dropTableIfExists)

/-- `getAddCommands(oldTables, newTables)`: one `createTable` per table
present in the target but absent live; `none` (undefined) when the
difference is empty. -/
def getAddCommands (oldTables newTables : List String) : Option (List Op) :=
  let addTables := jsDifference newTables oldTables
  if addTables.isEmpty then none
  else some (addTables.map Op.createTable)

/-- `getTablesFromSqlite3()`: catalog rows of type `table` except the
internal `sqlite_sequence` table. -/
def getTablesFromSqlite3 (db : DbState) : List String :=
  db.liveTables.filter (fun name => !(name == "sqlite_sequence"))

/-- `getTablesFromMySQL()`: `show tables`, flattened. -/
def getTablesFromMySQL (db : DbState) : List String :=
  db.liveTables

/-- `getTablesFromPgSQL()`: `information_schema.tables` of the public
schema. -/
def getTablesFromPgSQL (db : DbState) : List String :=
  db.liveTables

/-- `getTables()`: dispatch on the client name, rejecting (with a plain
string) any unsupported client. -/
def getTables (db : DbState) : Except JsErr (List String) :=
  if db.client == "sqlite3" then Except.ok (getTablesFromSqlite3 db)
  else if db.client == "mysql" then Except.ok (getTablesFromMySQL db)
  else if db.client == "pg" then Except.ok (getTablesFromPgSQL db)
  else Except.error (JsErr.stringVal ("No support for database client " ++ db.client))

/-- `checkMySQLPostTable()`: query the types of `posts.html` and
`posts.markdown` (`SHOW FIELDS`), then `ALTER` each whose type is not
already `mediumtext` (case-insensitively). -/
def checkMySQLPostTable (db : DbState) : List Op :=
  let fields := db.postsColumns.filter (fun e => e.1 == "html" || e.1 == "markdown")
  Op.showPostsFields ::
    (fields.filter (fun e => !(toLowerJs e.2 == "mediumtext"))).map
      (fun e => Op.alterPostsToMediumtext e.1)

/-- `migrateUp()`: list the live tables; when some exist and the client is
MySQL, run the posts-table repair first; then issue all delete commands
followed by all add commands against the registry (`schemaTables`, the
keys of the schema module — supplied here as the `registry` parameter
because `core/server/data/schema.js` is not under `src/`; modelled from
the spec's Schema Registry as the declared table names in declaration
order). -/
def migrateUp (db : DbState) (registry : List String) : List Op × Except JsErr Unit :=
  match getTables db with
  | Except.error e => ([], Except.error e)
  | Except.ok oldTables =>
    let repair :=
      if !oldTables.isEmpty && db.client == "mysql" then checkMySQLPostTable db else []
    let deleteCommands := (getDeleteCommands oldTables registry).getD []
    let addCommands := (getAddCommands oldTables registry).getD []
    (repair ++ deleteCommands ++ addCommands, Except.ok ())

/-- `migrateUpFreshDb()`: create every registry table in declaration
order, then populate fixtures, then populate default settings. -/
def migrateUpFreshDb (registry : List String) : List Op × Except JsErr Unit :=
  (registry.map Op.createTable ++ [Op.populateFixtures, Op.populateDefaults], Except.ok ())

/-- `reset()`: map every registry table to a `dropTableIfExists` command
and reverse the command list, then run it sequentially. -/
def reset (registry : List String) : List Op × Except JsErr Unit :=
  ((registry.map Op.dropTableIfExists).reverse, Except.ok ())

/-- `init()`: resolve the current version and branch.  `defaultVersion`
stands for `getDefaultDatabaseVersion()` (the `databaseVersion` default of
the `default-settings` module, which is not under `src/`; modelled from
the spec as the target version string the software expects).  The version
comparisons are JavaScript string comparisons.  On rejection of the
resolve, the source tests `err.message || err === 'Settings table does not
exist'` to choose the fresh-install path, else calls
`errors.logErrorAndExit`. -/
def init (db : DbState) (registry : List String) (defaultVersion : String) :
    List Op × InitOutcome :=
  match getDatabaseVersion db with
  | Except.ok databaseVersion =>
    if databaseVersion == defaultVersion then ([], InitOutcome.ok)
    else if jsStringLt databaseVersion defaultVersion then
      match migrateUp db registry with
      | (ops, Except.ok _) =>
        (ops ++ [(setDatabaseVersion db.settingsRows defaultVersion).2], InitOutcome.ok)
      | (ops, Except.error e) => (ops, InitOutcome.rejected e)
    else if jsStringLt defaultVersion databaseVersion then
      ([], InitOutcome.fatalExit
        "Your database is not compatible with this version of Ghost"
        "You will need to create a new database")
    else ([], InitOutcome.ok)
  | Except.error err =>
    if errMessageTruthy err || errEqString err "Settings table does not exist" then
      match migrateUpFreshDb registry with
      | (ops, Except.ok _) => (ops, InitOutcome.ok)
      | (ops, Except.error e) => (ops, InitOutcome.rejected e)
    else
      ([], InitOutcome.fatalExit "There is a problem with the database" (errMessageOrSelf err))

/-- The zero-padding loop `while (s.length < 3) s = "0" + s`, with enough
fuel for any starting length (each pass adds one character, so three
passes always reach length ≥ 3). -/
def padLoop : Nat → String → String
  | 0, s => s
  | fuel + 1, s => if s.length < 3 then padLoop fuel ("0" ++ s) else s

/-- Zero-pad to at least three characters. -/
def padTo3 (s : String) : String := padLoop 3 s

/-- `getVersionAfter(currVersion)` (versioned-step half of the module):
`parseInt`, defaulting to `parseInt(initialVersion)` on `NaN`, plus one,
stringified and zero-padded to three digits. -/
def getVersionAfter (currVersion : String) : String :=
  let currVersionNum : Int :=
    match parseIntJs currVersion with
    | some n => n
    | none => (parseIntJs initialVersion).getD 0
  padTo3 (jsIntToString (currVersionNum + 1))

/-- `getVersionBefore(currVersion)`: as `getVersionAfter` but minus one. -/
def getVersionBefore (currVersion : String) : String :=
  let currVersionNum : Int :=
    match parseIntJs currVersion with
    | some n => n
    | none => (parseIntJs initialVersion).getD 0
  padTo3 (jsIntToString (currVersionNum - 1))

/-- A canonical version marker: exactly three decimal digits (the form
the spec's data model declares for persisted version values). -/
def isVer3 (s : String) : Bool :=
  s.data.length == 3 && s.data.all isDigitChar

/-- Numeric value of a version string. -/
def ver3Val (s : String) : Nat := natOfDigits s.data

/-! ## Lemmas about the JavaScript primitives -/

theorem isDigitChar_bounds {c : Char} (h : isDigitChar c = true) :
    48 ≤ c.toNat ∧ c.toNat ≤ 57 := by
  simpa [isDigitChar] using h

theorem isDigitChar_not_space {c : Char} (h : isDigitChar c = true) :
    isJsSpace c = false := by
  obtain ⟨h1, h2⟩ := isDigitChar_bounds h
  have hs : ∀ d : Char, d.toNat < 48 → (c == d) = false := by
    intro d hd
    simp only [beq_eq_false_iff_ne]
    rintro rfl
    omega
  simp [isJsSpace, hs ' ' (by decide), hs '\t' (by decide), hs '\n' (by decide),
    hs '\r' (by decide)]

theorem isDigitChar_ne_char {c d : Char} (h : isDigitChar c = true)
    (hd : isDigitChar d = false) : (c == d) = false := by
  simp only [beq_eq_false_iff_ne]
  rintro rfl
  rw [h] at hd
  exact absurd hd (by simp)

theorem dropWhile_eq_self_of_false {p : Char → Bool} {l : List Char}
    (h : ∀ c ∈ l, p c = false) : l.dropWhile p = l := by
  cases l with
  | nil => rfl
  | cons c r => simp [List.dropWhile_cons, h c (by simp)]

theorem digits_trimJs {l : List Char} (h : ∀ c ∈ l, isDigitChar c = true) :
    trimJs l = l := by
  unfold trimJs
  rw [dropWhile_eq_self_of_false (fun c hc => isDigitChar_not_space (h c hc)),
    dropWhile_eq_self_of_false (fun c hc => isDigitChar_not_space (h c (List.mem_reverse.1 hc))),
    List.reverse_reverse]

theorem digits_takeWhile {l : List Char} (h : ∀ c ∈ l, isDigitChar c = true) :
    l.takeWhile isDigitChar = l :=
  List.takeWhile_eq_self_iff.2 h

theorem digits_dropWhile_nil {l : List Char} (h : ∀ c ∈ l, isDigitChar c = true) :
    l.dropWhile isDigitChar = [] :=
  List.dropWhile_eq_nil_iff.2 h

theorem parseIntCore_digits {l : List Char} (hne : l ≠ [])
    (h : ∀ c ∈ l, isDigitChar c = true) :
    parseIntCore l = some (natOfDigits l : Int) := by
  unfold parseIntCore
  rw [digits_takeWhile h]
  simp [hne]

theorem parseIntJs_digits {s : String} (hne : s.data ≠ [])
    (h : ∀ c ∈ s.data, isDigitChar c = true) :
    parseIntJs s = some (natOfDigits s.data : Int) := by
  obtain ⟨c, r, hl⟩ := List.exists_cons_of_ne_nil hne
  have hc : isDigitChar c = true := h c (by rw [hl]; simp)
  have hcm : c ≠ '-' := by rintro rfl; exact absurd hc (by decide)
  have hcp : c ≠ '+' := by rintro rfl; exact absurd hc (by decide)
  unfold parseIntJs
  rw [dropWhile_eq_self_of_false (fun d hd => isDigitChar_not_space (h d hd))]
  rw [if_neg (by rw [hl]; simp [hcm]), if_neg (by rw [hl]; simp [hcp])]
  exact parseIntCore_digits hne h

theorem jsNumericLiteral_digits {l : List Char} (hne : l ≠ [])
    (h : ∀ c ∈ l, isDigitChar c = true) : jsNumericLiteral l = true := by
  obtain ⟨c, r, hl⟩ := List.exists_cons_of_ne_nil hne
  have hc : isDigitChar c = true := h c (by rw [hl]; simp)
  have hcm : c ≠ '-' := by rintro rfl; exact absurd hc (by decide)
  have hcp : c ≠ '+' := by rintro rfl; exact absurd hc (by decide)
  unfold jsNumericLiteral
  rw [if_neg (by rw [hl]; simp [hcm, hcp])]
  unfold jsUnsignedNumeric mantissaAndExp
  rw [digits_takeWhile h, digits_dropWhile_nil h]
  simp [expPartOk, List.isEmpty_iff, hne]

theorem jsIsNaN_digits {s : String} (hne : s.data ≠ [])
    (h : ∀ c ∈ s.data, isDigitChar c = true) : jsIsNaN s = false := by
  unfold jsIsNaN
  rw [digits_trimJs h]
  simp [hne, jsNumericLiteral_digits hne h]

theorem char_eq_of_toNat_eq {a b : Char} (h : a.toNat = b.toNat) : a = b :=
  Char.eq_of_val_eq (UInt32.ext h)

/-- Structure of a canonical three-digit version string. -/
theorem isVer3_elim {s : String} (h : isVer3 s = true) :
    ∃ a b c, s.data = [a, b, c] ∧ isDigitChar a = true ∧ isDigitChar b = true ∧
      isDigitChar c = true := by
  unfold isVer3 at h
  simp only [Bool.and_eq_true, beq_iff_eq, List.all_eq_true] at h
  obtain ⟨hlen, hall⟩ := h
  obtain ⟨a, b, c, habc⟩ := List.length_eq_three.1 hlen
  exact ⟨a, b, c, habc,
    hall a (by rw [habc]; simp), hall b (by rw [habc]; simp), hall c (by rw [habc]; simp)⟩

theorem natOfDigits_three {a b c : Char} :
    natOfDigits [a, b, c] = (digitVal a * 10 + digitVal b) * 10 + digitVal c := by
  simp [natOfDigits, List.foldl]

theorem isVer3_ne_empty {s : String} (h : isVer3 s = true) : (s == "") = false := by
  obtain ⟨a, b, c, habc, -⟩ := isVer3_elim h
  simp only [beq_eq_false_iff_ne]
  rintro rfl
  have hx : ([] : List Char) = [a, b, c] := habc
  simp at hx

theorem isVer3_initialVersion : isVer3 initialVersion = true := by decide

/-- Three-digit version strings with the same numeric value are equal. -/
theorem ver3Val_inj {s t : String} (hs : isVer3 s = true) (ht : isVer3 t = true)
    (h : ver3Val s = ver3Val t) : s = t := by
  obtain ⟨a, b, c, habc, ha, hb, hc⟩ := isVer3_elim hs
  obtain ⟨d, e, f, hdef, hd, he, hf⟩ := isVer3_elim ht
  unfold ver3Val at h
  rw [habc, hdef, natOfDigits_three, natOfDigits_three] at h
  obtain ⟨ha1, ha2⟩ := isDigitChar_bounds ha
  obtain ⟨hb1, hb2⟩ := isDigitChar_bounds hb
  obtain ⟨hc1, hc2⟩ := isDigitChar_bounds hc
  obtain ⟨hd1, hd2⟩ := isDigitChar_bounds hd
  obtain ⟨he1, he2⟩ := isDigitChar_bounds he
  obtain ⟨hf1, hf2⟩ := isDigitChar_bounds hf
  unfold digitVal at h
  have had : a.toNat = d.toNat := by omega
  have hbe : b.toNat = e.toNat := by omega
  have hcf : c.toNat = f.toNat := by omega
  have hdata : s.data = t.data := by
    rw [habc, hdef, char_eq_of_toNat_eq had, char_eq_of_toNat_eq hbe, char_eq_of_toNat_eq hcf]
  exact congrArg String.mk hdata

theorem ver3_all_digits {s : String} (h : isVer3 s = true) :
    ∀ d ∈ s.data, isDigitChar d = true := by
  obtain ⟨a, b, c, habc, ha, hb, hc⟩ := isVer3_elim h
  intro d hd
  rw [habc] at hd
  simp only [List.mem_cons, List.not_mem_nil, or_false] at hd
  rcases hd with rfl | rfl | rfl
  · exact ha
  · exact hb
  · exact hc

theorem ver3_data_ne_nil {s : String} (h : isVer3 s = true) : s.data ≠ [] := by
  obtain ⟨a, b, c, habc, -⟩ := isVer3_elim h
  rw [habc]
  simp

/-- `parseInt` of a three-digit version string is its numeric value. -/
theorem parseIntJs_ver3 {s : String} (h : isVer3 s = true) :
    parseIntJs s = some (ver3Val s : Int) :=
  parseIntJs_digits (ver3_data_ne_nil h) (ver3_all_digits h)

theorem jsIsNaN_ver3 {s : String} (h : isVer3 s = true) : jsIsNaN s = false :=
  jsIsNaN_digits (ver3_data_ne_nil h) (ver3_all_digits h)

/-- On three-digit version strings the JavaScript `parseInt` comparison is
the numeric comparison. -/
theorem jsNumGt_ver3 {a b : String} (ha : isVer3 a = true) (hb : isVer3 b = true) :
    jsNumGt (parseIntJs a) (parseIntJs b) = decide (ver3Val b < ver3Val a) := by
  rw [parseIntJs_ver3 ha, parseIntJs_ver3 hb]
  simp [jsNumGt]

/-- On equal-length digit strings the JavaScript string order is the
numeric order (three-digit case). -/
theorem jsStringLt_ver3 {s t : String} (hs : isVer3 s = true) (ht : isVer3 t = true) :
    jsStringLt s t = decide (ver3Val s < ver3Val t) := by
  obtain ⟨a, b, c, habc, ha, hb, hc⟩ := isVer3_elim hs
  obtain ⟨d, e, f, hdef, hd, he, hf⟩ := isVer3_elim ht
  obtain ⟨ha1, ha2⟩ := isDigitChar_bounds ha
  obtain ⟨hb1, hb2⟩ := isDigitChar_bounds hb
  obtain ⟨hc1, hc2⟩ := isDigitChar_bounds hc
  obtain ⟨hd1, hd2⟩ := isDigitChar_bounds hd
  obtain ⟨he1, he2⟩ := isDigitChar_bounds he
  obtain ⟨hf1, hf2⟩ := isDigitChar_bounds hf
  unfold jsStringLt ver3Val
  rw [habc, hdef, natOfDigits_three, natOfDigits_three]
  rw [show lexLtChars [a, b, c] [d, e, f] =
      decide (a.toNat < d.toNat ∨ a.toNat = d.toNat ∧ (b.toNat < e.toNat ∨
        b.toNat = e.toNat ∧ c.toNat < f.toNat)) by
    simp only [lexLtChars]
    split_ifs <;> simp <;> omega]
  rw [decide_eq_decide]
  unfold digitVal
  omega

/-! ## Lemmas about the version resolver -/

/-- When every stored value passes the `isNaN` check, the monadic reduce
is the pure fold. -/
theorem foldlM_reduce_no_nan {vs : List String} {memo : String}
    (h : ∀ v ∈ vs, jsIsNaN v = false) :
    vs.foldlM reduceStepM memo = Except.ok (vs.foldl reduceStep memo) := by
  induction vs generalizing memo with
  | nil => rfl
  | cons v vs ih =>
    rw [List.foldlM_cons]
    have h1 : reduceStepM memo v = Except.ok (reduceStep memo v) := by
      unfold reduceStepM
      rw [h v (by simp)]
      simp
    rw [h1, List.foldl_cons]
    exact ih (fun u hu => h u (List.mem_cons_of_mem _ hu))

/-- On three-digit version strings, `reduceStep` keeps the numerically
greater string. -/
theorem reduceStep_ver3 {memo v : String} (hm : isVer3 memo = true)
    (hv : isVer3 v = true) :
    reduceStep memo v = if ver3Val memo < ver3Val v then v else memo := by
  unfold reduceStep
  rw [jsNumGt_ver3 hv hm]
  simp

/-- The pure fold of `reduceStep` over three-digit version strings yields
a three-digit string at least as large as the seed and every element, and
equal to the seed or one of the elements. -/
theorem foldl_reduceStep_props (vs : List String) (memo : String)
    (hm : isVer3 memo = true) (hvs : ∀ v ∈ vs, isVer3 v = true) :
    isVer3 (vs.foldl reduceStep memo) = true ∧
    ver3Val memo ≤ ver3Val (vs.foldl reduceStep memo) ∧
    (∀ u ∈ vs, ver3Val u ≤ ver3Val (vs.foldl reduceStep memo)) ∧
    (vs.foldl reduceStep memo = memo ∨ vs.foldl reduceStep memo ∈ vs) := by
  induction vs generalizing memo with
  | nil => simpa using hm
  | cons v vs ih =>
    have hv : isVer3 v = true := hvs v (by simp)
    have hvs' : ∀ u ∈ vs, isVer3 u = true := fun u hu => hvs u (List.mem_cons_of_mem _ hu)
    rw [List.foldl_cons, reduceStep_ver3 hm hv]
    by_cases hlt : ver3Val memo < ver3Val v
    · rw [if_pos hlt]
      obtain ⟨h1, h2, h3, h4⟩ := ih v hv hvs'
      refine ⟨h1, by omega, ?_, ?_⟩
      · intro u hu
        rcases List.mem_cons.1 hu with rfl | hu
        · exact h2
        · exact h3 u hu
      · rcases h4 with h4 | h4
        · exact Or.inr (by rw [h4]; simp)
        · exact Or.inr (List.mem_cons_of_mem _ h4)
    · rw [if_neg hlt]
      obtain ⟨h1, h2, h3, h4⟩ := ih memo hm hvs'
      refine ⟨h1, h2, ?_, ?_⟩
      · intro u hu
        rcases List.mem_cons.1 hu with rfl | hu
        · omega
        · exact h3 u hu
      · rcases h4 with h4 | h4
        · exact Or.inl h4
        · exact Or.inr (List.mem_cons_of_mem _ h4)

/-- When a value dominating all others is present, the fold returns
exactly it. -/
theorem foldl_reduceStep_max {vs : List String} {dv : String}
    (hvs : ∀ v ∈ vs, isVer3 v = true) (hdv : dv ∈ vs)
    (hmax : ∀ u ∈ vs, ver3Val u ≤ ver3Val dv) :
    vs.foldl reduceStep initialVersion = dv := by
  obtain ⟨h1, -, h3, h4⟩ :=
    foldl_reduceStep_props vs initialVersion isVer3_initialVersion hvs
  have hrv : ver3Val dv ≤ ver3Val (vs.foldl reduceStep initialVersion) := h3 dv hdv
  rcases h4 with hr | hr
  · have hv0 : ver3Val (vs.foldl reduceStep initialVersion) = 0 := by
      rw [hr]
      rfl
    exact (ver3Val_inj (hvs dv hdv) h1 (by omega)).symm
  · have hle : ver3Val (vs.foldl reduceStep initialVersion) ≤ ver3Val dv := hmax _ hr
    exact ver3Val_inj h1 (hvs dv hdv) (by omega)

/-- `getDatabaseVersion` on a database whose relevant settings rows all
hold three-digit values reduces to the pure fold. -/
theorem getDatabaseVersion_ver3 (db : DbState) (hs : hasSettingsTable db = true)
    (hv : ∀ v ∈ versionRows db, isVer3 v = true) :
    getDatabaseVersion db =
      Except.ok ((versionRows db).foldl reduceStep initialVersion) := by
  obtain ⟨h1, -, -, -⟩ :=
    foldl_reduceStep_props (versionRows db) initialVersion isVer3_initialVersion hv
  unfold getDatabaseVersion
  rw [if_pos hs]
  have hr : reduceVersions (versionRows db) =
      Except.ok ((versionRows db).foldl reduceStep initialVersion) := by
    unfold reduceVersions
    exact foldlM_reduce_no_nan (fun v hvv => jsIsNaN_ver3 (hv v hvv))
  rw [hr]
  simp [isVer3_ne_empty h1]

/-! ## Structural lemmas about the table-diff path -/

theorem getDeleteCommands_getD (oldTables newTables : List String) :
    (getDeleteCommands oldTables newTables).getD [] =
      (jsDifference oldTables newTables).map Op.dropTableIfExists := by
  unfold getDeleteCommands
  by_cases h : (jsDifference oldTables newTables).isEmpty = true
  · rw [if_pos h]
    rw [List.isEmpty_iff.1 h]
    rfl
  · rw [if_neg h]
    rfl

theorem getAddCommands_getD (oldTables newTables : List String) :
    (getAddCommands oldTables newTables).getD [] =
      (jsDifference newTables oldTables).map Op.createTable := by
  unfold getAddCommands
  by_cases h : (jsDifference newTables oldTables).isEmpty = true
  · rw [if_pos h]
    rw [List.isEmpty_iff.1 h]
    rfl
  · rw [if_neg h]
    rfl

/-- The whole trace of `migrateUp` on a supported client: optional repair
prefix, then all deletes, then all adds. -/
theorem migrateUp_eq (db : DbState) (registry : List String) {live : List String}
    (hlive : getTables db = Except.ok live) :
    migrateUp db registry =
      ((if !live.isEmpty && db.client == "mysql" then checkMySQLPostTable db else []) ++
        ((jsDifference live registry).map Op.dropTableIfExists ++
          (jsDifference registry live).map Op.createTable),
       Except.ok ()) := by
  unfold migrateUp
  rw [hlive]
  dsimp only
  rw [getDeleteCommands_getD, getAddCommands_getD]
  rw [List.append_assoc]

theorem getTables_mysql {db : DbState} (h : db.client = "mysql") :
    getTables db = Except.ok db.liveTables := by
  unfold getTables getTablesFromMySQL
  rw [h]
  rfl

theorem getTables_sqlite3 {db : DbState} (h : db.client = "sqlite3") :
    getTables db = Except.ok (getTablesFromSqlite3 db) := by
  unfold getTables
  rw [h]
  rfl

/-- Count of a table in a lodash difference of a duplicate-free list. -/
theorem count_jsDifference {l : List String} (hnd : l.Nodup) (r : List String) (t : String) :
    (jsDifference l r).count t = if t ∈ l ∧ t ∉ r then 1 else 0 := by
  by_cases h : t ∈ l ∧ t ∉ r
  · rw [if_pos h]
    refine List.count_eq_one_of_mem (hnd.filter _) ?_
    rw [jsDifference, List.mem_filter]
    exact ⟨h.1, by simpa using h.2⟩
  · rw [if_neg h]
    rw [List.count_eq_zero]
    intro hmem
    rw [jsDifference, List.mem_filter] at hmem
    exact h ⟨hmem.1, by simpa using hmem.2⟩

theorem count_map_dropTable (l : List String) (t : String) :
    (l.map Op.dropTableIfExists).count (Op.dropTableIfExists t) = l.count t := by
  refine List.count_map_of_injective _ _ (fun a b hab => ?_) _
  injection hab

theorem count_map_createTable (l : List String) (t : String) :
    (l.map Op.createTable).count (Op.createTable t) = l.count t := by
  refine List.count_map_of_injective _ _ (fun a b hab => ?_) _
  injection hab

theorem checkMySQLPostTable_not_ddl (db : DbState) :
    ∀ op ∈ checkMySQLPostTable db, opIsTableDdl op = false := by
  intro op hop
  unfold checkMySQLPostTable at hop
  rcases List.mem_cons.1 hop with rfl | hop
  · rfl
  · obtain ⟨e, -, rfl⟩ := List.mem_map.1 hop
    rfl

theorem repair_prefix_not_ddl (db : DbState) (live : List String) :
    ∀ op ∈ (if !live.isEmpty && db.client == "mysql" then checkMySQLPostTable db else []),
      opIsTableDdl op = false := by
  intro op hop
  by_cases h : (!live.isEmpty && db.client == "mysql") = true
  · rw [if_pos h] at hop
    exact checkMySQLPostTable_not_ddl db op hop
  · rw [if_neg h] at hop
    exact absurd hop (List.not_mem_nil _)

theorem diff_ops_not_repair (live registry : List String) :
    ∀ op ∈ (jsDifference live registry).map Op.dropTableIfExists ++
        (jsDifference registry live).map Op.createTable,
      opIsRepair op = false := by
  intro op hop
  rcases List.mem_append.1 hop with hop | hop
  · obtain ⟨t, -, rfl⟩ := List.mem_map.1 hop
    rfl
  · obtain ⟨t, -, rfl⟩ := List.mem_map.1 hop
    rfl

/-- In a concatenation whose first part contains no table DDL and whose
second part contains no repair operation, every repair index precedes
every DDL index. -/
theorem repair_index_lt_ddl_index {u v : List Op} {i j : Nat} {opi opj : Op}
    (hu : ∀ op ∈ u, opIsTableDdl op = false) (hv : ∀ op ∈ v, opIsRepair op = false)
    (hi : (u ++ v).get? i = some opi) (hj : (u ++ v).get? j = some opj)
    (hrep : opIsRepair opi = true) (hddl : opIsTableDdl opj = true) : i < j := by
  have hiu : i < u.length := by
    by_contra hge
    push_neg at hge
    rw [List.get?_append_right hge] at hi
    have hmem : opi ∈ v := List.get?_mem hi
    rw [hv opi hmem] at hrep
    exact absurd hrep (by simp)
  have hju : u.length ≤ j := by
    by_contra hlt
    push_neg at hlt
    rw [List.get?_append hlt] at hj
    have hmem : opj ∈ u := List.get?_mem hj
    rw [hu opj hmem] at hddl
    exact absurd hddl (by simp)
  omega

/-! ## Claim theorems -/

/-- C1: the claim says the fresh-install bootstrap is taken if and only if
the version resolve fails with the settings-table-missing condition, any
other resolve failure (for example an invalid version value) being fatal.
The code disagrees: `init`'s rejection handler tests `err.message || err
=== 'Settings table does not exist'`, and the invalid-version rejection is
an `Error` whose message is non-empty, so it also takes the fresh-install
path (`migrateUpFreshDb`) instead of reaching `errors.logErrorAndExit`.
This theorem evaluates the code at the failing input: a database whose
settings table exists but stores the non-numeric version `'abc'`. -/
theorem init_invalid_version_takes_fresh_install_path :
    getDatabaseVersion ⟨"sqlite3", ["settings"], [("databaseVersion", "abc")], []⟩ =
      Except.error (JsErr.errorObj "Database version is not recognised") ∧
    init ⟨"sqlite3", ["settings"], [("databaseVersion", "abc")], []⟩ ["posts", "settings"] "004" =
      ([Op.createTable "posts", Op.createTable "settings", Op.populateFixtures,
        Op.populateDefaults], InitOutcome.ok) := by
  constructor
  · rfl
  · rfl

/-- C6: the claim says a non-numeric stored version marker makes
`getDatabaseVersion()` fail with a fatal, logged, process-exiting error.
The resolver does fail (no silent `'000'` fallback), but the failure is
not fatal: `init` catches it (the thrown `Error` has a message, so
`err.message` is truthy) and proceeds with the fresh-install path, so the
process does not exit.  Evaluated here at the stored value `'12abc'`. -/
theorem invalid_version_not_fatal :
    getDatabaseVersion ⟨"sqlite3", ["settings"], [("currentVersion", "12abc")], []⟩ =
      Except.error (JsErr.errorObj "Database version is not recognised") ∧
    (init ⟨"sqlite3", ["settings"], [("currentVersion", "12abc")], []⟩
        ["posts", "settings"] "004").2 = InitOutcome.ok := by
  constructor
  · rfl
  · rfl

/-- C4 counterexample: with a settings table holding only a legacy
`currentVersion` row, `setDatabaseVersion` (an `update` of existing
`databaseVersion` rows only) writes nothing, and the subsequent
`getDatabaseVersion()` returns the old `'002'`, not the written
`'004'`. -/
theorem setDatabaseVersion_not_observed :
    getDatabaseVersion ⟨"sqlite3", ["settings"],
        (setDatabaseVersion [("currentVersion", "002")] "004").1, []⟩ = Except.ok "002" ∧
    (Except.ok "002" : Except JsErr String) ≠ Except.ok "004" := by
  constructor
  · rfl
  · intro h
    exact absurd (Except.ok.inj h) (by decide)

/-- C10: on the upgrade path with an empty live-table enumeration,
`migrateUp` skips the MySQL posts-table repair entirely (its trace
contains no repair query and no `ALTER`) and the table diff creates every
registry table, in declaration order. -/
theorem migrateUp_emptyLive_skips_repair (db : DbState) (registry : List String)
    (hclient : db.client = "mysql") (hempty : db.liveTables = []) :
    migrateUp db registry = (registry.map Op.createTable, Except.ok ()) := by
  have hlive : getTables db = Except.ok [] := by
    rw [getTables_mysql hclient, hempty]
  rw [migrateUp_eq db registry hlive]
  simp [jsDifference]

/-- C10 witness: a concrete MySQL database with no tables (even with a
repairable posts column recorded) issues exactly the two creates. -/
theorem migrateUp_emptyLive_skips_repair_witness :
    migrateUp ⟨"mysql", [], [], [("html", "text")]⟩ ["posts", "settings"] =
      ([Op.createTable "posts", Op.createTable "settings"], Except.ok ()) := by
  rw [migrateUp_emptyLive_skips_repair ⟨"mysql", [], [], [("html", "text")]⟩
    ["posts", "settings"] rfl rfl]
  rfl

/-- C8: `reset()` issues exactly one `dropTableIfExists` per
registry-declared table, in the reverse of declaration order, and its
trace contains no write to the version marker. -/
theorem reset_drops_all_reversed_no_version_write (registry : List String)
    (hnd : registry.Nodup) :
    (reset registry).1 = registry.reverse.map Op.dropTableIfExists ∧
    (∀ t ∈ registry, (reset registry).1.count (Op.dropTableIfExists t) = 1) ∧
    (∀ op ∈ (reset registry).1, opIsVersionWrite op = false) := by
  refine ⟨?_, ?_, ?_⟩
  · unfold reset
    rw [List.map_reverse]
  · intro t ht
    unfold reset
    dsimp only
    rw [List.count_reverse, count_map_dropTable]
    exact List.count_eq_one_of_mem hnd ht
  · intro op hop
    unfold reset at hop
    dsimp only at hop
    obtain ⟨u, -, rfl⟩ := List.mem_map.1 (List.mem_reverse.1 hop)
    rfl

/-- C8 witness: the concrete three-table registry. -/
theorem reset_drops_all_reversed_no_version_write_witness :
    (reset ["posts", "users", "settings"]).1 =
      ["posts", "users", "settings"].reverse.map Op.dropTableIfExists ∧
    (∀ t ∈ ["posts", "users", "settings"],
      (reset ["posts", "users", "settings"]).1.count (Op.dropTableIfExists t) = 1) ∧
    (∀ op ∈ (reset ["posts", "users", "settings"]).1, opIsVersionWrite op = false) :=
  reset_drops_all_reversed_no_version_write ["posts", "users", "settings"] (by decide)

/-- C5: when the settings table exists and every row keyed
`databaseVersion` or `currentVersion` holds a canonical three-digit
numeric value, `getDatabaseVersion()` returns the numerically greatest of
those values, defaulting to `initialVersion` (`'000'`) when no such rows
are present. -/
theorem getDatabaseVersion_resolves_max (db : DbState)
    (hs : hasSettingsTable db = true)
    (hv : ∀ v ∈ versionRows db, isVer3 v = true) :
    ∃ w, getDatabaseVersion db = Except.ok w ∧
      (versionRows db = [] → w = initialVersion) ∧
      (versionRows db ≠ [] →
        w ∈ versionRows db ∧ ∀ u ∈ versionRows db, ver3Val u ≤ ver3Val w) := by
  refine ⟨_, getDatabaseVersion_ver3 db hs hv, ?_, ?_⟩
  · intro h
    rw [h]
    rfl
  · intro hne
    obtain ⟨h1, -, h3, h4⟩ :=
      foldl_reduceStep_props (versionRows db) initialVersion isVer3_initialVersion hv
    refine ⟨?_, h3⟩
    rcases h4 with h4 | h4
    · obtain ⟨v, hvmem⟩ := List.exists_mem_of_ne_nil _ hne
      have hle : ver3Val v ≤ ver3Val ((versionRows db).foldl reduceStep initialVersion) :=
        h3 v hvmem
      have hv0 : ver3Val ((versionRows db).foldl reduceStep initialVersion) = 0 := by
        rw [h4]
        rfl
      have : v = (versionRows db).foldl reduceStep initialVersion :=
        ver3Val_inj (hv v hvmem) h1 (by omega)
      rw [← this]
      exact hvmem
    · exact h4

/-- C5 witness: the claim's concrete legacy pair `{databaseVersion:
'003', currentVersion: '002'}` resolves, and resolves to `'003'`. -/
theorem getDatabaseVersion_resolves_max_witness :
    (∃ w, getDatabaseVersion
        ⟨"sqlite3", ["settings"], [("databaseVersion", "003"), ("currentVersion", "002")], []⟩ =
        Except.ok w ∧
      (versionRows ⟨"sqlite3", ["settings"],
          [("databaseVersion", "003"), ("currentVersion", "002")], []⟩ = [] →
        w = initialVersion) ∧
      (versionRows ⟨"sqlite3", ["settings"],
          [("databaseVersion", "003"), ("currentVersion", "002")], []⟩ ≠ [] →
        w ∈ versionRows ⟨"sqlite3", ["settings"],
          [("databaseVersion", "003"), ("currentVersion", "002")], []⟩ ∧
        ∀ u ∈ versionRows ⟨"sqlite3", ["settings"],
          [("databaseVersion", "003"), ("currentVersion", "002")], []⟩,
          ver3Val u ≤ ver3Val w)) ∧
    getDatabaseVersion
        ⟨"sqlite3", ["settings"], [("databaseVersion", "003"), ("currentVersion", "002")], []⟩ =
      Except.ok "003" :=
  ⟨getDatabaseVersion_resolves_max
    ⟨"sqlite3", ["settings"], [("databaseVersion", "003"), ("currentVersion", "002")], []⟩
    (by decide) (by decide), by rfl⟩

/-- C4 amended: `setDatabaseVersion` writes the cached default version by
updating existing `databaseVersion` rows only; when such a row exists, the
default version is a three-digit numeric string, and every legacy
`currentVersion` row holds a three-digit value not exceeding it, the next
`getDatabaseVersion()` observes exactly the written version. -/
theorem getDatabaseVersion_after_setDatabaseVersion (db : DbState) (dv w : String)
    (hs : hasSettingsTable db = true) (hdv : isVer3 dv = true)
    (hw : ("databaseVersion", w) ∈ db.settingsRows)
    (hcv : ∀ r ∈ db.settingsRows, r.1 = "currentVersion" →
      isVer3 r.2 = true ∧ ver3Val r.2 ≤ ver3Val dv) :
    getDatabaseVersion
      { db with settingsRows := (setDatabaseVersion db.settingsRows dv).1 } =
      Except.ok dv := by
  set db' : DbState := { db with settingsRows := (setDatabaseVersion db.settingsRows dv).1 }
  have hs' : hasSettingsTable db' = true := hs
  have hval : ∀ v ∈ versionRows db', isVer3 v = true ∧ ver3Val v ≤ ver3Val dv := by
    intro v hvv
    obtain ⟨r, hr, rfl⟩ := List.mem_map.1 hvv
    obtain ⟨hrmem, hrkey⟩ := List.mem_filter.1 hr
    obtain ⟨r0, hr0, hupd⟩ := List.mem_map.1 hrmem
    by_cases hk : (r0.1 == "databaseVersion") = true
    · rw [if_pos hk] at hupd
      rw [← hupd]
      exact ⟨hdv, le_refl _⟩
    · rw [if_neg hk] at hupd
      simp only [Bool.not_eq_true] at hk
      rw [← hupd] at hrkey ⊢
      rw [hk] at hrkey
      simp only [Bool.false_or, beq_iff_eq] at hrkey
      exact hcv r0 hr0 hrkey
  have hmem : dv ∈ versionRows db' := by
    refine List.mem_map.2 ⟨("databaseVersion", dv), ?_, rfl⟩
    refine List.mem_filter.2 ⟨?_, by simp⟩
    refine List.mem_map.2 ⟨("databaseVersion", w), hw, ?_⟩
    simp
  rw [getDatabaseVersion_ver3 db' hs' (fun v hvv => (hval v hvv).1)]
  rw [foldl_reduceStep_max (fun v hvv => (hval v hvv).1) hmem
    (fun u hu => (hval u hu).2)]

/-- C4 amended, witness: rows `{databaseVersion:'003', currentVersion:
'002'}` with default `'004'`: after the update the resolver returns
`'004'`. -/
theorem getDatabaseVersion_after_setDatabaseVersion_witness :
    getDatabaseVersion
      { client := "sqlite3", liveTables := ["settings"],
        settingsRows := (setDatabaseVersion
          [("databaseVersion", "003"), ("currentVersion", "002")] "004").1,
        postsColumns := [] } = Except.ok "004" :=
  getDatabaseVersion_after_setDatabaseVersion
    ⟨"sqlite3", ["settings"], [("databaseVersion", "003"), ("currentVersion", "002")], []⟩
    "004" "003" (by decide) (by decide) (by decide) (by decide)

/-- C2: when the resolved current version is numerically greater than the
default (target) version — both in the canonical three-digit form the
data model declares, on which the source's JavaScript string comparison
coincides with numeric comparison — `init()` issues no operation at all
(in particular no DDL and no database mutation) and calls the fatal,
process-terminating error sink. -/
theorem init_downgrade_refused_no_ops (db : DbState) (registry : List String)
    (cur dv : String) (hcur : getDatabaseVersion db = Except.ok cur)
    (h3c : isVer3 cur = true) (h3d : isVer3 dv = true)
    (hgt : ver3Val dv < ver3Val cur) :
    init db registry dv =
      ([], InitOutcome.fatalExit
        "Your database is not compatible with this version of Ghost"
        "You will need to create a new database") := by
  have hne : (cur == dv) = false := by
    simp only [beq_eq_false_iff_ne]
    rintro rfl
    omega
  unfold init
  rw [hcur]
  dsimp only
  rw [if_neg (by rw [hne]; simp)]
  rw [if_neg (by rw [jsStringLt_ver3 h3c h3d]; simp; omega)]
  rw [if_pos (by rw [jsStringLt_ver3 h3d h3c]; simp [hgt])]

/-- C2 witness: current `'005'`, target `'004'`. -/
theorem init_downgrade_refused_no_ops_witness :
    getDatabaseVersion ⟨"sqlite3", ["settings"], [("databaseVersion", "005")], []⟩ =
      Except.ok "005" ∧
    init ⟨"sqlite3", ["settings"], [("databaseVersion", "005")], []⟩ ["posts"] "004" =
      ([], InitOutcome.fatalExit
        "Your database is not compatible with this version of Ghost"
        "You will need to create a new database") :=
  ⟨by rfl,
   init_downgrade_refused_no_ops ⟨"sqlite3", ["settings"], [("databaseVersion", "005")], []⟩
     ["posts"] "005" "004" (by rfl) (by decide) (by decide) (by decide)⟩

/-- C3: on the upgrade path, the `migrateUp` trace is a non-DDL prefix
(the optional MySQL repair) followed by exactly the delete commands and
then the add commands; it contains exactly one `dropTableIfExists` for
each live table absent from the registry and exactly one `createTable`
for each registry table absent live, with every delete preceding every
add. -/
theorem migrateUp_table_diff (db : DbState) (registry live : List String)
    (hlive : getTables db = Except.ok live) (hnl : live.Nodup) (hnr : registry.Nodup) :
    ∃ pre,
      (migrateUp db registry).1 =
        pre ++ ((jsDifference live registry).map Op.dropTableIfExists ++
          (jsDifference registry live).map Op.createTable) ∧
      (∀ op ∈ pre, opIsTableDdl op = false) ∧
      (∀ t, (migrateUp db registry).1.count (Op.dropTableIfExists t) =
        if t ∈ live ∧ t ∉ registry then 1 else 0) ∧
      (∀ t, (migrateUp db registry).1.count (Op.createTable t) =
        if t ∈ registry ∧ t ∉ live then 1 else 0) := by
  have htr := migrateUp_eq db registry hlive
  refine ⟨if !live.isEmpty && db.client == "mysql" then checkMySQLPostTable db else [],
    by rw [htr], repair_prefix_not_ddl db live, ?_, ?_⟩
  · intro t
    rw [htr]
    dsimp only
    rw [List.count_append, List.count_append]
    have h0 : (if !live.isEmpty && db.client == "mysql" then
        checkMySQLPostTable db else []).count (Op.dropTableIfExists t) = 0 := by
      rw [List.count_eq_zero]
      intro hmem
      have hdd := repair_prefix_not_ddl db live _ hmem
      exact absurd hdd (by simp [opIsTableDdl])
    have h2 : ((jsDifference registry live).map Op.createTable).count
        (Op.dropTableIfExists t) = 0 := by
      rw [List.count_eq_zero]
      intro hmem
      obtain ⟨u, -, hu⟩ := List.mem_map.1 hmem
      exact Op.noConfusion hu
    rw [h0, h2, count_map_dropTable, count_jsDifference hnl registry t]
    omega
  · intro t
    rw [htr]
    dsimp only
    rw [List.count_append, List.count_append]
    have h0 : (if !live.isEmpty && db.client == "mysql" then
        checkMySQLPostTable db else []).count (Op.createTable t) = 0 := by
      rw [List.count_eq_zero]
      intro hmem
      have hdd := repair_prefix_not_ddl db live _ hmem
      exact absurd hdd (by simp [opIsTableDdl])
    have h2 : ((jsDifference live registry).map Op.dropTableIfExists).count
        (Op.createTable t) = 0 := by
      rw [List.count_eq_zero]
      intro hmem
      obtain ⟨u, -, hu⟩ := List.mem_map.1 hmem
      exact Op.noConfusion hu
    rw [h0, h2, count_map_createTable, count_jsDifference hnr live t]
    omega

/-- C3 witness: a SQLite database holding `settings`, a stale
`old_widgets` and `posts`, against the registry `posts, settings,
users`. -/
theorem migrateUp_table_diff_witness :
    ∃ pre,
      (migrateUp ⟨"sqlite3", ["settings", "old_widgets", "posts"],
          [("databaseVersion", "003")], []⟩ ["posts", "settings", "users"]).1 =
        pre ++ ((jsDifference ["settings", "old_widgets", "posts"]
            ["posts", "settings", "users"]).map Op.dropTableIfExists ++
          (jsDifference ["posts", "settings", "users"]
            ["settings", "old_widgets", "posts"]).map Op.createTable) ∧
      (∀ op ∈ pre, opIsTableDdl op = false) ∧
      (∀ t, (migrateUp ⟨"sqlite3", ["settings", "old_widgets", "posts"],
          [("databaseVersion", "003")], []⟩ ["posts", "settings", "users"]).1.count
            (Op.dropTableIfExists t) =
        if t ∈ ["settings", "old_widgets", "posts"] ∧ t ∉ ["posts", "settings", "users"]
        then 1 else 0) ∧
      (∀ t, (migrateUp ⟨"sqlite3", ["settings", "old_widgets", "posts"],
          [("databaseVersion", "003")], []⟩ ["posts", "settings", "users"]).1.count
            (Op.createTable t) =
        if t ∈ ["posts", "settings", "users"] ∧ t ∉ ["settings", "old_widgets", "posts"]
        then 1 else 0) :=
  migrateUp_table_diff ⟨"sqlite3", ["settings", "old_widgets", "posts"],
    [("databaseVersion", "003")], []⟩ ["posts", "settings", "users"]
    ["settings", "old_widgets", "posts"] (by rfl) (by decide) (by decide)

/-- C9: on a MySQL engine, every operation of the posts-table repair step
(the `SHOW FIELDS` probe and any widening `ALTER`) occurs in the
`migrateUp` trace strictly before every `createTable` or
`dropTableIfExists` operation: no table DDL is ever issued before the
repair has finished. -/
theorem migrateUp_repair_before_ddl (db : DbState) (registry : List String)
    (hclient : db.client = "mysql") (i j : Nat) (opi opj : Op)
    (hi : (migrateUp db registry).1.get? i = some opi)
    (hj : (migrateUp db registry).1.get? j = some opj)
    (hrep : opIsRepair opi = true) (hddl : opIsTableDdl opj = true) :
    i < j := by
  have htr := migrateUp_eq db registry (getTables_mysql hclient)
  rw [htr] at hi hj
  dsimp only at hi hj
  exact repair_index_lt_ddl_index (repair_prefix_not_ddl db db.liveTables)
    (diff_ops_not_repair db.liveTables registry) hi hj hrep hddl

/-- C9 witness: a MySQL database with a `posts` table whose `html` column
is under-sized, upgraded against a registry adding `settings`: the
widening `ALTER` (index 1) precedes the `createTable` (index 2). -/
theorem migrateUp_repair_before_ddl_witness :
    (migrateUp ⟨"mysql", ["posts"], [], [("html", "text")]⟩ ["settings", "posts"]).1.get? 1 =
      some (Op.alterPostsToMediumtext "html") ∧
    (migrateUp ⟨"mysql", ["posts"], [], [("html", "text")]⟩ ["settings", "posts"]).1.get? 2 =
      some (Op.createTable "settings") ∧
    1 < 2 :=
  ⟨by rfl, by rfl,
   migrateUp_repair_before_ddl ⟨"mysql", ["posts"], [], [("html", "text")]⟩
     ["settings", "posts"] rfl 1 2 (Op.alterPostsToMediumtext "html")
     (Op.createTable "settings") (by rfl) (by rfl) (by rfl) (by rfl)⟩

set_option maxRecDepth 8000 in
set_option maxHeartbeats 2000000 in
/-- C7: for every non-boundary three-digit numeric version string (the
zero-padded form `padTo3 (Nat.repr n)` with `0 < n < 1000`),
`getVersionAfter (getVersionBefore v) = v`; and the zero-padding of both
functions yields exactly three digits whenever the resulting value lies
in 0–999 (successor of `n < 999`, predecessor of `n > 0`). -/
theorem versionAfter_versionBefore_roundtrip (n : Nat) (hlt : n < 1000) :
    (0 < n →
      getVersionAfter (getVersionBefore (padTo3 (Nat.repr n))) = padTo3 (Nat.repr n)) ∧
    (n < 999 → isVer3 (getVersionAfter (padTo3 (Nat.repr n))) = true) ∧
    (0 < n → isVer3 (getVersionBefore (padTo3 (Nat.repr n))) = true) := by
  have H : ∀ m : Nat, m < 1000 →
      (0 < m →
        getVersionAfter (getVersionBefore (padTo3 (Nat.repr m))) = padTo3 (Nat.repr m)) ∧
      (m < 999 → isVer3 (getVersionAfter (padTo3 (Nat.repr m))) = true) ∧
      (0 < m → isVer3 (getVersionBefore (padTo3 (Nat.repr m))) = true) := by decide
  exact H n hlt

/-- C7 witness: the version `'005'`. -/
theorem versionAfter_versionBefore_roundtrip_witness :
    getVersionAfter (getVersionBefore (padTo3 (Nat.repr 5))) = padTo3 (Nat.repr 5) ∧
    isVer3 (getVersionAfter (padTo3 (Nat.repr 5))) = true ∧
    isVer3 (getVersionBefore (padTo3 (Nat.repr 5))) = true :=
  ⟨(versionAfter_versionBefore_roundtrip 5 (by decide)).1 (by decide),
   (versionAfter_versionBefore_roundtrip 5 (by decide)).2.1 (by decide),
   (versionAfter_versionBefore_roundtrip 5 (by decide)).2.2 (by decide)⟩

end GhostMigration
